import Mathlib

/-!
# ICME corpus: annotated memory traces, the recursive allocator and the generator

The repository is a set of short C++ programs.  Six of them carry, in trailing
comments, a sequence of trace directives (`@alloc`, `@free`, `@push`, ...).
This development embeds

* the directive sequences of the six annotated files, directive by directive
  in file order, keeping every field name and field value as written;
* the function `recurse` of `recurse.cpp`, run on a machine with a bounded
  call stack and heap, with a log of its `new[]` and `delete[]` statements;
* the coroutine `produce_values`, the `Generator` iterator and the range-for
  loop of `main` in `producer_consumer.cpp`.

and proves properties of them.
-/

namespace ICME

/-! ## Directives -/

/-- The fourteen directive kinds of the trace format. -/
inductive Kind where
  | alloc | sp_alloc | free | leak | sp_inc | sp_dec | push | pop_stack
  | bind_ptr | update_stack | call | ret | unwind | label
  deriving DecidableEq, Repr

/-- The field names that occur after a directive keyword. -/
inductive Field where
  | id | label | size | name | val | target | arg | func
  deriving DecidableEq, Repr

/-- One directive: its kind and its `field=value` items in written order. -/
structure Directive where
  kind : Kind
  fields : List (Field × String)
  deriving DecidableEq, Repr

/-- A trace is the directive sequence of one file, read top to bottom. -/
abbrev Trace := List Directive

/-- Value of a field of a directive, when the directive carries it. -/
def Directive.get (d : Directive) (f : Field) : Option String :=
  (d.fields.find? (fun p => p.1 = f)).map (fun p => p.2)

/-- Field names of a directive in written order. -/
def Directive.fieldNames (d : Directive) : List Field :=
  d.fields.map (fun p => p.1)

/-! ## The corpus

Each definition lists the directives of one source file in order.  A source
line whose comment holds no directive (`// (no directive)`, `//`) contributes
nothing. -/

/-- Directives of `recurse.cpp`, lines 2 to 17. -/
def recurse_trace : Trace :=
  [ ⟨.label, [(.name, "recurse")]⟩,
    ⟨.push, [(.name, "n"), (.val, "n")]⟩,
    ⟨.push, [(.name, "p"), (.val, "10")]⟩,
    ⟨.push, [(.name, "q"), (.val, "20")]⟩,
    ⟨.alloc, [(.id, "H1"), (.label, "char[100]"), (.size, "100")]⟩,
    ⟨.bind_ptr, [(.name, "a"), (.id, "H1")]⟩,
    ⟨.push, [(.name, "a"), (.val, "<heap H1>")]⟩,
    ⟨.alloc, [(.id, "H2"), (.label, "float[1000]"), (.size, "4000")]⟩,
    ⟨.bind_ptr, [(.name, "b"), (.id, "H2")]⟩,
    ⟨.push, [(.name, "b"), (.val, "<heap H2>")]⟩,
    ⟨.ret, []⟩,
    ⟨.free, [(.id, "H1")]⟩,
    ⟨.call, [(.target, "recurse"), (.arg, "n-1")]⟩,
    ⟨.ret, [(.func, "recurse")]⟩,
    ⟨.unwind, []⟩ ]

/-- Directives of `heap.cpp`, lines 3 to 16. -/
def heap_trace : Trace :=
  [ ⟨.label, [(.name, "smart_ptr_example")]⟩,
    ⟨.alloc, [(.id, "H1"), (.label, "a→char[100]"), (.size, "100")]⟩,
    ⟨.bind_ptr, [(.name, "a"), (.id, "H1")]⟩,
    ⟨.push, [(.name, "a"), (.val, "<heap H1>")]⟩,
    ⟨.alloc, [(.id, "H2"), (.label, "b→int[100]"), (.size, "400")]⟩,
    ⟨.bind_ptr, [(.name, "b"), (.id, "H2")]⟩,
    ⟨.push, [(.name, "b"), (.val, "<heap H2>")]⟩,
    ⟨.push, [(.name, "c"), (.val, "[b]")]⟩,
    ⟨.free, [(.id, "H1")]⟩,
    ⟨.pop_stack, []⟩,
    ⟨.leak, [(.id, "H2")]⟩,
    ⟨.pop_stack, []⟩,
    ⟨.pop_stack, []⟩,
    ⟨.pop_stack, []⟩ ]

/-- Directives of `stack_heap_stepper.cpp`, lines 2 to 18. -/
def stack_heap_stepper_trace : Trace :=
  [ ⟨.label, [(.name, "basic_heap_example")]⟩,
    ⟨.push, [(.name, "a"), (.val, "5")]⟩,
    ⟨.push, [(.name, "f"), (.val, "3.14")]⟩,
    ⟨.alloc, [(.id, "H1"), (.label, "p→int[42]"), (.size, "168")]⟩,
    ⟨.bind_ptr, [(.name, "p"), (.id, "H1")]⟩,
    ⟨.push, [(.name, "p"), (.val, "<heap H1>")]⟩,
    ⟨.alloc, [(.id, "H2"), (.label, "q→int[4]"), (.size, "16")]⟩,
    ⟨.bind_ptr, [(.name, "q"), (.id, "H2")]⟩,
    ⟨.push, [(.name, "q"), (.val, "<heap H2>")]⟩,
    ⟨.free, [(.id, "H1")]⟩,
    ⟨.update_stack, [(.name, "a"), (.val, "14")]⟩,
    ⟨.leak, [(.id, "H2")]⟩,
    ⟨.pop_stack, []⟩,
    ⟨.pop_stack, []⟩,
    ⟨.pop_stack, []⟩,
    ⟨.pop_stack, []⟩ ]

/-- Directives of `smart_ptr.cpp`, lines 3 to 36. -/
def smart_ptr_trace : Trace :=
  [ ⟨.label, [(.name, "smart_ptr_example")]⟩,
    ⟨.push, [(.name, "p"), (.val, "10")]⟩,
    ⟨.push, [(.name, "q"), (.val, "20")]⟩,
    ⟨.push, [(.name, "r"), (.val, "30")]⟩,
    ⟨.push, [(.name, "s"), (.val, "40")]⟩,
    ⟨.alloc, [(.id, "H1"), (.label, "a→char[100]"), (.size, "100")]⟩,
    ⟨.bind_ptr, [(.name, "a"), (.id, "H1")]⟩,
    ⟨.push, [(.name, "a"), (.val, "<heap H1>")]⟩,
    ⟨.alloc, [(.id, "H2"), (.label, "b→float[100]"), (.size, "400")]⟩,
    ⟨.bind_ptr, [(.name, "b"), (.id, "H2")]⟩,
    ⟨.push, [(.name, "b"), (.val, "<heap H2>")]⟩,
    ⟨.sp_alloc, [(.id, "H3"), (.label, "[c]→int[100]"), (.size, "400")]⟩,
    ⟨.bind_ptr, [(.name, "c"), (.id, "H3")]⟩,
    ⟨.push, [(.name, "c"), (.val, "<heap H3>")]⟩,
    ⟨.sp_inc, [(.id, "H3")]⟩,
    ⟨.push, [(.name, "d"), (.val, "[c]")]⟩,
    ⟨.update_stack, [(.name, "s"), (.val, "50")]⟩,
    ⟨.free, [(.id, "H1")]⟩,
    ⟨.sp_alloc, [(.id, "H4"), (.label, "[e]→int[10]"), (.size, "40")]⟩,
    ⟨.bind_ptr, [(.name, "e"), (.id, "H4")]⟩,
    ⟨.push, [(.name, "e"), (.val, "[<heap H4>]")]⟩,
    ⟨.pop_stack, []⟩,
    ⟨.free, [(.id, "H4")]⟩,
    ⟨.pop_stack, []⟩,
    ⟨.sp_dec, [(.id, "H3")]⟩,
    ⟨.pop_stack, []⟩,
    ⟨.free, [(.id, "H3")]⟩,
    ⟨.pop_stack, []⟩,
    ⟨.leak, [(.id, "H2")]⟩,
    ⟨.pop_stack, []⟩,
    ⟨.pop_stack, []⟩,
    ⟨.pop_stack, []⟩,
    ⟨.pop_stack, []⟩,
    ⟨.pop_stack, []⟩ ]

/-- Directives of `cycle.cpp`, lines 8 to 21. -/
def cycle_trace : Trace :=
  [ ⟨.sp_alloc, [(.id, "H1"), (.label, "[a]→Node")]⟩,
    ⟨.bind_ptr, [(.name, "a"), (.id, "H1")]⟩,
    ⟨.push, [(.name, "a"), (.val, "<heap H1>")]⟩,
    ⟨.sp_alloc, [(.id, "H2"), (.label, "[b]→Node")]⟩,
    ⟨.bind_ptr, [(.name, "b"), (.id, "H2")]⟩,
    ⟨.push, [(.name, "b"), (.val, "<heap H2>")]⟩,
    ⟨.sp_inc, [(.id, "H2")]⟩,
    ⟨.sp_inc, [(.id, "H1")]⟩,
    ⟨.pop_stack, []⟩,
    ⟨.sp_dec, [(.id, "H2")]⟩,
    ⟨.pop_stack, []⟩,
    ⟨.sp_dec, [(.id, "H1")]⟩,
    ⟨.leak, [(.id, "H1")]⟩,
    ⟨.leak, [(.id, "H2")]⟩ ]

/-- Directives of `shared_cycle_fix.cpp`, lines 8 to 23.  Line 15
(`b->prev = a;`) has an empty comment and contributes no directive. -/
def shared_cycle_fix_trace : Trace :=
  [ ⟨.sp_alloc, [(.id, "H1"), (.label, "[a]→Node")]⟩,
    ⟨.bind_ptr, [(.name, "a"), (.id, "H1")]⟩,
    ⟨.push, [(.name, "a"), (.val, "<heap H1>")]⟩,
    ⟨.sp_alloc, [(.id, "H2"), (.label, "[b]→Node")]⟩,
    ⟨.bind_ptr, [(.name, "b"), (.id, "H2")]⟩,
    ⟨.push, [(.name, "b"), (.val, "<heap H2>")]⟩,
    ⟨.sp_inc, [(.id, "H2")]⟩,
    ⟨.pop_stack, []⟩,
    ⟨.sp_dec, [(.id, "H2")]⟩,
    ⟨.pop_stack, []⟩,
    ⟨.sp_dec, [(.id, "H1")]⟩,
    ⟨.free, [(.id, "H1")]⟩,
    ⟨.sp_dec, [(.id, "H2")]⟩,
    ⟨.pop_stack, []⟩,
    ⟨.free, [(.id, "H2")]⟩ ]

/-- The six annotated traces of the corpus. -/
def corpus : List Trace :=
  [heap_trace, recurse_trace, smart_ptr_trace, stack_heap_stepper_trace,
   cycle_trace, shared_cycle_fix_trace]

/-! ## Observations on a trace -/

/-- Does directive `d` have kind `k` and name block `b` in its `id` field? -/
def isOn (k : Kind) (b : String) (d : Directive) : Bool :=
  decide (d.kind = k) && decide (d.get .id = some b)

/-- Number of directives of kind `k` naming block `b`. -/
def countOn (k : Kind) (b : String) (t : Trace) : Nat :=
  t.countP (isOn k b)

/-- Number of directives of kind `k`. -/
def countKind (k : Kind) (t : Trace) : Nat :=
  t.countP (fun d => decide (d.kind = k))

/-- Block ids introduced by directives of kind `k`, in trace order. -/
def idsOf (k : Kind) (t : Trace) : List String :=
  t.filterMap (fun d => if d.kind = k then d.get .id else none)

/-- Raw blocks: ids introduced by `@alloc`. -/
def rawIds (t : Trace) : List String := idsOf .alloc t

/-- Shared blocks: ids introduced by `@sp_alloc`. -/
def sharedIds (t : Trace) : List String := idsOf .sp_alloc t

/-- Number of terminal directives (`@free` or `@leak`) naming block `b`. -/
def terminalCount (b : String) (t : Trace) : Nat :=
  countOn .free b t + countOn .leak b t

/-- Prefix of a trace up to and including its first `@ret`: the directives met
on the path that leaves the function at its first `return`. -/
def earlyRetPath : Trace → Trace
  | [] => []
  | d :: t => if d.kind = .ret then [d] else d :: earlyRetPath t

/-! ### Reference-count replay -/

/-- One replay step of the reference count of block `b`: `@sp_alloc` sets it to
1, `@sp_inc` adds 1, `@sp_dec` subtracts 1, every other directive leaves it.
`none` means that `b` has not been allocated yet. -/
def stepCount (b : String) (c : Option Int) (d : Directive) : Option Int :=
  if isOn .sp_alloc b d then some 1
  else if isOn .sp_inc b d then c.map (fun x => x + 1)
  else if isOn .sp_dec b d then c.map (fun x => x - 1)
  else c

/-- Reference count of `b` after replaying the whole of `t` from count `c`. -/
def refcountFrom (b : String) (c : Option Int) (t : Trace) : Option Int :=
  t.foldl (stepCount b) c

/-- Reference count of `b` at the end of `t`. -/
def finalRefcount (b : String) (t : Trace) : Option Int :=
  refcountFrom b none t

/-- Every value the replayed count of `b` takes, in order: one entry after each
`@sp_alloc`, `@sp_inc` or `@sp_dec` of `b`. -/
def refcountsFrom (b : String) : Option Int → Trace → List Int
  | _, [] => []
  | c, d :: t =>
    if isOn .sp_alloc b d || isOn .sp_inc b d || isOn .sp_dec b d then
      match stepCount b c d with
      | some x => x :: refcountsFrom b (some x) t
      | none => refcountsFrom b none t
    else refcountsFrom b c t

/-- Values of the replayed count of `b` over `t`. -/
def refcounts (b : String) (t : Trace) : List Int := refcountsFrom b none t

/-- For each `@free` of `b` in `t`, the replayed count of `b` just before it. -/
def countsAtFreeFrom (b : String) : Option Int → Trace → List (Option Int)
  | _, [] => []
  | c, d :: t =>
    if isOn .free b d then c :: countsAtFreeFrom b c t
    else countsAtFreeFrom b (stepCount b c d) t

/-- Replayed count of `b` in front of each of its `@free` directives. -/
def countsAtFree (b : String) (t : Trace) : List (Option Int) :=
  countsAtFreeFrom b none t

/-! ### Block state replay -/

/-- Lifecycle state of a heap block. -/
inductive BlockState where
  | Allocated | Freed | Leaked
  deriving DecidableEq, Repr

/-- One replay step of the state of block `b`. -/
def stepState (b : String) (s : Option BlockState) (d : Directive) : Option BlockState :=
  if isOn .alloc b d || isOn .sp_alloc b d then some .Allocated
  else if isOn .free b d then some .Freed
  else if isOn .leak b d then some .Leaked
  else s

/-- State of block `b` at the end of `t` (`none`: never allocated). -/
def finalState (b : String) (t : Trace) : Option BlockState :=
  t.foldl (stepState b) none

/-! ### Stack replay -/

/-- Replays `@push` and `@pop_stack` on a stack of binding names (top first).
Returns the final stack and the names in the order they were popped, or `none`
when a `@pop_stack` meets an empty stack. -/
def replayStack : Trace → List String → List String → Option (List String × List String)
  | [], s, popped => some (s, popped)
  | d :: t, s, popped =>
    match d.kind with
    | .push => replayStack t ((d.get .name).getD "" :: s) popped
    | .pop_stack =>
      match s with
      | [] => none
      | x :: s' => replayStack t s' (popped ++ [x])
    | _ => replayStack t s popped

/-- Names pushed by `t`, in push order. -/
def pushedNames (t : Trace) : List String :=
  t.filterMap (fun d => if d.kind = .push then some ((d.get .name).getD "") else none)

/-- No prefix of `t` holds more `@pop_stack` than `@push`. -/
def popsNeverExceedPushes (t : Trace) : Prop :=
  ∀ k, k ≤ t.length → countKind .pop_stack (t.take k) ≤ countKind .push (t.take k)

instance (t : Trace) : Decidable (popsNeverExceedPushes t) := by
  unfold popsNeverExceedPushes; infer_instance

/-- The stack discipline: pops never exceed pushes in a prefix, totals agree,
the replay ends with an empty stack and pops the names in reverse push order. -/
def stackDiscipline (t : Trace) : Prop :=
  popsNeverExceedPushes t ∧ countKind .pop_stack t = countKind .push t ∧
  replayStack t [] [] = some ([], (pushedNames t).reverse)

instance (t : Trace) : Decidable (stackDiscipline t) := by
  unfold stackDiscipline; infer_instance

/-! ### Terminal directives of raw blocks -/

/-- The `@free` and `@leak` directives of `t` that name a Raw block of `t`. -/
def rawTerminals (t : Trace) : Trace :=
  t.filter (fun d => (decide (d.kind = .free) || decide (d.kind = .leak)) &&
    decide (∃ b ∈ rawIds t, d.get .id = some b))

/-- Block id bound to variable `v` by a `@bind_ptr` of `t`. -/
def boundId (t : Trace) (v : String) : Option String :=
  (t.find? (fun d => decide (d.kind = .bind_ptr) && decide (d.get .name = some v))).bind
    (fun d => d.get .id)

/-- Variable named by the single `delete` statement of `heap()`
(`delete[] a;`, heap.cpp line 11). -/
def heap_deleted : String := "a"

/-- Variable named by the single `delete` statement of `run()`
(`delete p;`, stack_heap_stepper.cpp line 12). -/
def stack_heap_stepper_deleted : String := "p"

/-- Variable named by the single `delete` statement of `smart_ptr()`
(`delete[] a;`, smart_ptr.cpp line 20). -/
def smart_ptr_deleted : String := "a"

/-- The scope of `t` deletes the Raw block bound to variable `v` and leaks the
other one: `t` has exactly the Raw blocks `H1` and `H2`, `v` is bound to `H1`,
and the terminal directives of `t` that name a Raw block are exactly
`@free id=H1` followed by `@leak id=H2`. -/
def deletedThenLeaked (t : Trace) (v : String) : Prop :=
  rawIds t = ["H1", "H2"] ∧
  boundId t v = some "H1" ∧
  rawTerminals t = [⟨.free, [(.id, "H1")]⟩, ⟨.leak, [(.id, "H2")]⟩] ∧
  countKind .free (rawTerminals t) = 1 ∧
  countKind .leak (rawTerminals t) = 1

instance (t : Trace) (v : String) : Decidable (deletedThenLeaked t v) := by
  unfold deletedThenLeaked; infer_instance

/-! ### Field presence -/

/-- All directives of kind `k` in the six traces. -/
def occurrences (k : Kind) : List Directive :=
  corpus.flatten.filter (fun d => decide (d.kind = k))

/-- Two directives carry the same set of field names. -/
def sameFields (d e : Directive) : Prop :=
  d.fieldNames ⊆ e.fieldNames ∧ e.fieldNames ⊆ d.fieldNames

instance (d e : Directive) : Decidable (sameFields d e) := by
  unfold sameFields; infer_instance

/-- Every occurrence of kind `k` in the corpus carries the same field names. -/
def fixedFields (k : Kind) : Prop :=
  ∀ d ∈ occurrences k, ∀ e ∈ occurrences k, sameFields d e

instance (k : Kind) : Decidable (fixedFields k) := by
  unfold fixedFields; infer_instance

/-! ### Block lifecycle -/

/-- Block ids introduced by `@alloc` or `@sp_alloc`, in trace order. -/
def allocatedIds (t : Trace) : List String :=
  t.filterMap (fun d => if d.kind = .alloc ∨ d.kind = .sp_alloc then d.get .id else none)

/-- The ids `H1`, `H2`, ..., `Hn`. -/
def blockNames (n : Nat) : List String :=
  (List.range n).map (fun i => "H" ++ toString (i + 1))

/-- Is `d` the `@alloc` or `@sp_alloc` of block `b`? -/
def isAllocOf (b : String) (d : Directive) : Bool :=
  isOn .alloc b d || isOn .sp_alloc b d

/-- Kinds that refer to an existing block through an `id` field. -/
def refersToBlock (d : Directive) : Prop :=
  d.kind = .bind_ptr ∨ d.kind = .sp_inc ∨ d.kind = .sp_dec ∨ d.kind = .free ∨ d.kind = .leak

instance (d : Directive) : Decidable (refersToBlock d) := by
  unfold refersToBlock; infer_instance

/-- Every directive that refers to a block occurs after the allocation of that
block: the directives in front of it contain the `@alloc`/`@sp_alloc` of its id. -/
def usesFollowAlloc (t : Trace) : Prop :=
  ∀ k, k < t.length → ∀ d ∈ (t.drop k).head?, refersToBlock d →
    ∃ b ∈ d.get .id, ∃ e ∈ t.take k, isAllocOf b e = true

instance (t : Trace) : Decidable (usesFollowAlloc t) := by
  unfold usesFollowAlloc; infer_instance

/-- Directive `e` uses (by `@sp_inc`, `@sp_dec` or `@free`) the block that
directive `d` ends (by `@free` or `@leak`). -/
def usesEndedBlock (d e : Directive) : Prop :=
  (d.kind = .free ∨ d.kind = .leak) ∧
  (e.kind = .sp_inc ∨ e.kind = .sp_dec ∨ e.kind = .free) ∧
  d.get .id ≠ none ∧ d.get .id = e.get .id

instance (d e : Directive) : Decidable (usesEndedBlock d e) := by
  unfold usesEndedBlock; infer_instance

/-- Well-formed block lifecycle of one trace. -/
def lifecycleWellFormed (t : Trace) : Prop :=
  allocatedIds t = blockNames (allocatedIds t).length ∧
  (allocatedIds t).Nodup ∧
  usesFollowAlloc t ∧
  (∀ b ∈ allocatedIds t, countOn .free b t ≤ 1) ∧
  (∀ b ∈ allocatedIds t, ¬ (0 < countOn .free b t ∧ 0 < countOn .leak b t)) ∧
  t.Pairwise (fun d e => ¬ usesEndedBlock d e)

instance (t : Trace) : Decidable (lifecycleWellFormed t) := by
  unfold lifecycleWellFormed; infer_instance

/-! ## Machine integers -/

/-- Value of a 32-bit two's-complement `int` holding the mathematical result
`x`.  C++ leaves signed overflow undefined; the embedding takes the wrapped
value, which is the identity exactly when `x` fits in an `int`. -/
def wrap32 (x : Int) : Int := (x + 2147483648) % 4294967296 - 2147483648

/-- The values of type `int`. -/
def isInt32 (x : Int) : Prop := -2147483648 ≤ x ∧ x ≤ 2147483647

/-! ## `recurse` (recurse.cpp) -/

/-- The two pointer variables of `recurse`. -/
inductive Var where
  | a | b
  deriving DecidableEq, Repr

/-- A heap statement executed by one invocation of `recurse`; `arg` is the
argument `n` of that invocation. -/
inductive HeapOp where
  | new (arg : Int) (v : Var)
  | delete (arg : Int) (v : Var)
  deriving DecidableEq, Repr

/-- Outcome of a call of `recurse` that returns: the returned value, the number
of recursive calls made below it, and the heap statements executed, in
execution order. -/
structure Run where
  value : Int
  calls : Nat
  ops : List HeapOp
  deriving DecidableEq, Repr

/-- The two ways a call of `recurse` ends without returning: the call stack has
no room for another invocation, or `new[]` throws `std::bad_alloc`, which
nothing catches. -/
inductive Crash where
  | stackExhausted | badAlloc
  deriving DecidableEq, Repr

/-- The resources of the machine that runs `recurse`, which the source leaves
open: how many nested invocations of `recurse` the call stack holds, and how
many bytes `new[]` can have outstanding. -/
structure Machine where
  stackFrames : Nat
  heapBytes : Nat
  deriving DecidableEq, Repr

/-- The function `recurse` of recurse.cpp, called with `depth` invocations of
it already on the call stack and `used` heap bytes outstanding:
```
int p = 10; int q = 20;
char* a = new char[100];        // 100 bytes
float* b = new float[1000];     // 4000 bytes
if (n <= 0) return 0;
delete[] a;
int r = recurse(n-1);
return r + 1;
```
The invocation needs a stack frame, and each `new[]` needs its bytes (100 and
4000, the sizes the annotations of lines 6 and 9 give).  `delete[] a` returns
the 100 bytes before the recursive call; `b` is never returned. -/
def recurse (M : Machine) (depth used : Nat) (n : Int) : Except Crash Run :=
  if M.stackFrames ≤ depth then .error .stackExhausted
  else if M.heapBytes < used + 100 then .error .badAlloc
  else if M.heapBytes < used + 100 + 4000 then .error .badAlloc
  else if n ≤ 0 then .ok ⟨0, 0, [.new n .a, .new n .b]⟩
  else
    match recurse M (depth + 1) (used + 4000) (wrap32 (n - 1)) with
    | .error c => .error c
    | .ok r =>
      .ok ⟨wrap32 (r.value + 1), r.calls + 1, [.new n .a, .new n .b, .delete n .a] ++ r.ops⟩
termination_by n.toNat
decreasing_by
  simp only [wrap32]
  omega

/-- Blocks allocated by a list of heap statements: (invocation, variable). -/
def newBlocks (ops : List HeapOp) : List (Int × Var) :=
  ops.filterMap (fun o => match o with | .new k v => some (k, v) | .delete _ _ => none)

/-- Blocks deleted by a list of heap statements. -/
def deletedBlocks (ops : List HeapOp) : List (Int × Var) :=
  ops.filterMap (fun o => match o with | .delete k v => some (k, v) | .new _ _ => none)

/-- Allocated blocks for which no `delete[]` is executed. -/
def neverDeleted (ops : List HeapOp) : List (Int × Var) :=
  (newBlocks ops).filter (fun x => decide (x ∉ deletedBlocks ops))

/-- Replays heap statements in order on the list of live blocks: `new` adds a
block that is not live, `delete[]` removes a block that is live.  `none` when a
`new` names a live block or a `delete[]` names a block that is not live (not
yet allocated, or already deleted). -/
def replayHeap : List HeapOp → List (Int × Var) → Option (List (Int × Var))
  | [], live => some live
  | .new k v :: ops, live =>
    if (k, v) ∈ live then none else replayHeap ops (live ++ [(k, v)])
  | .delete k v :: ops, live =>
    if (k, v) ∈ live then replayHeap ops (live.erase (k, v)) else none

/-- The shape of a run of `recurse` on the argument `m >= 0`: value, number of
calls, allocated and deleted blocks, and the heap replay from any live list
whose blocks belong to invocations with a larger argument. -/
def runShape (m : Nat) (r : Run) : Prop :=
  r.value = m ∧ r.calls = m ∧
  (newBlocks r.ops).length = 2 * (m + 1) ∧
  (deletedBlocks r.ops).length = m ∧
  (∀ x ∈ newBlocks r.ops, x.1 ≤ m) ∧
  (∀ x ∈ deletedBlocks r.ops, x.2 = .a ∧ 0 < x.1 ∧ x.1 ≤ m) ∧
  (deletedBlocks r.ops).Nodup ∧
  neverDeleted r.ops = (newBlocks r.ops).filter (fun x => decide (x.2 = .b ∨ x.1 ≤ 0)) ∧
  (neverDeleted r.ops).length = m + 2 ∧
  (∀ live : List (Int × Var), (∀ x ∈ live, (m : Int) < x.1) →
    replayHeap r.ops live = some (live ++ neverDeleted r.ops))

/-! ## The generator (producer_consumer.cpp) -/

/-- Suspension point of the coroutine `produce_values`: before the body
(`initial_suspend`), at `co_yield`, or after the body (`final_suspend`). -/
inductive Point where
  | start | atYield | finished
  deriving DecidableEq, Repr

/-- Coroutine frame of `produce_values`: parameter `n`, loop variable `i`, the
suspension point, and the promise member `current_value`. -/
structure Coro where
  n : Int
  i : Int
  point : Point
  current_value : Option Int
  deriving DecidableEq, Repr

/-- Calling `produce_values(n)`: `initial_suspend` returns `suspend_always`, so
the frame is created suspended before the body and nothing has been yielded.
`get_return_object` wraps the handle of this frame in a `Generator`, which
`consume` below does with `Generator.mk`. -/
def produce_values (n : Int) : Coro := ⟨n, 0, .start, none⟩

/-- The member `coro.done()`: suspended at the final suspend point. -/
def Coro.done (c : Coro) : Bool := decide (c.point = .finished)

/-- The body from the loop test `i < n` with loop variable `i` to the next
suspension: `co_yield i * i` stores the value through `yield_value` and
suspends, a failed test falls off the body into `final_suspend`. -/
def Coro.enterLoop (c : Coro) (i : Int) : Coro :=
  if i < c.n then
    { c with i := i, point := .atYield, current_value := some (wrap32 (i * i)) }
  else
    { c with i := i, point := .finished }

/-- The member `coro.resume()`.  From the start the loop begins with `i = 0`;
from a `co_yield` it continues with `++i`.  Resuming a coroutine suspended at
its final suspend point is undefined: `none`. -/
def Coro.resume (c : Coro) : Option Coro :=
  match c.point with
  | .start => some (c.enterLoop 0)
  | .atYield => some (c.enterLoop (wrap32 (c.i + 1)))
  | .finished => none

/-- The class `Generator<int>`: a coroutine handle, `none` for `nullptr`. -/
structure Generator where
  coro : Option Coro
  deriving DecidableEq, Repr

/-- The class `Generator<int>::iterator`. -/
structure Generator.iterator where
  coro : Option Coro
  done : Bool
  deriving DecidableEq, Repr

/-- The member `Generator::begin()`. -/
def Generator.begin (g : Generator) : Option Generator.iterator :=
  match g.coro with
  | some c => (c.resume).map (fun c1 => ⟨some c1, c1.done⟩)
  | none => some ⟨none, true⟩

/-- The member `iterator::operator++`; undefined on a null handle. -/
def Generator.iterator.next (it : Generator.iterator) : Option Generator.iterator :=
  match it.coro with
  | some c => (c.resume).map (fun c1 => ⟨some c1, c1.done⟩)
  | none => none

/-- The member `iterator::operator*`: `*coro.promise().current_value`, undefined
on a null handle or an empty optional. -/
def Generator.iterator.deref (it : Generator.iterator) : Option Int :=
  match it.coro with
  | some c => c.current_value
  | none => none

/-- The member `iterator::operator==(std::default_sentinel_t)`. -/
def Generator.iterator.atEnd (it : Generator.iterator) : Bool := it.done

/-- One dereference made by the consumer: the value read, and whether the
coroutine had already completed when it was read. -/
structure Seen where
  value : Int
  afterCompletion : Bool
  deriving DecidableEq, Repr

/-- The range-for loop of `main` from an iterator on:
`for (; !(it == end()); ++it) { int v = *it; ... }`, at most `fuel` tests of the
loop condition.  Returns the dereferences made, in order; `none` when the fuel
runs out or an undefined operation is met. -/
def consumeFrom : Nat → Generator.iterator → Option (List Seen)
  | 0, _ => none
  | fuel + 1, it =>
    if it.atEnd then some []
    else
      match it.deref, it.next with
      | some v, some it1 =>
        (consumeFrom fuel it1).map
          (fun rest => ⟨v, (it.coro.map Coro.done).getD true⟩ :: rest)
      | _, _ => none

/-- The consumer of `main` for `produce_values(n)`:
`auto gen = produce_values(n); for (int v : gen) ...`. -/
def consume (fuel : Nat) (n : Int) : Option (List Seen) :=
  ((Generator.mk (some (produce_values n))).begin).bind (consumeFrom fuel)

/-- The coroutine after `k` calls of `resume()`. -/
def resumeTimes : Nat → Coro → Option Coro
  | 0, c => some c
  | k + 1, c => (resumeTimes k c).bind Coro.resume

/-- The squares `0*0, 1*1, ..., (m-1)*(m-1)`. -/
def squares (m : Nat) : List Int :=
  (List.range m).map (fun (i : Nat) => (i : Int) * (i : Int))

/-! ## Theorems on the annotated traces -/

section Traces

set_option maxRecDepth 100000

/-- C1, evaluated on the code: in `recurse.cpp` the Raw block `H2` has no
terminal directive and is still `Allocated` at the end of the trace (`H1` has
its one `@free`); on the path that leaves at the first `@ret` neither `H1` nor
`H2` has a terminal directive.  In `heap.cpp`, `smart_ptr.cpp` and
`stack_heap_stepper.cpp` every Raw block has exactly one terminal directive and
does not end `Allocated`. -/
theorem C1_recurse_raw_block_never_terminated :
    rawIds recurse_trace = ["H1", "H2"] ∧
    terminalCount "H1" recurse_trace = 1 ∧
    terminalCount "H2" recurse_trace = 0 ∧
    finalState "H2" recurse_trace = some .Allocated ∧
    rawIds (earlyRetPath recurse_trace) = ["H1", "H2"] ∧
    (∀ b ∈ rawIds (earlyRetPath recurse_trace),
      terminalCount b (earlyRetPath recurse_trace) = 0 ∧
      finalState b (earlyRetPath recurse_trace) = some .Allocated) ∧
    (∀ t ∈ [heap_trace, smart_ptr_trace, stack_heap_stepper_trace], ∀ b ∈ rawIds t,
      terminalCount b t = 1 ∧ finalState b t ≠ some .Allocated) := by
  decide

/-- C2, evaluated on the code: in `smart_ptr.cpp` the Shared blocks `H3` and
`H4` each have one `@free` although their replayed counts (1, 2, 1 and 1) never
reach zero: the count in front of each `@free` is 1.  The replayed count is
never negative in any trace, and in `cycle.cpp` and `shared_cycle_fix.cpp` a
Shared block has an `@free` exactly when its count reaches zero, the count in
front of that `@free` being zero. -/
theorem C2_smart_ptr_free_without_zero_count :
    sharedIds smart_ptr_trace = ["H3", "H4"] ∧
    refcounts "H3" smart_ptr_trace = [1, 2, 1] ∧
    countOn .free "H3" smart_ptr_trace = 1 ∧
    countsAtFree "H3" smart_ptr_trace = [some 1] ∧
    refcounts "H4" smart_ptr_trace = [1] ∧
    countOn .free "H4" smart_ptr_trace = 1 ∧
    countsAtFree "H4" smart_ptr_trace = [some 1] ∧
    (∀ t ∈ corpus, ∀ b ∈ sharedIds t, ∀ c ∈ refcounts b t, 0 ≤ c) ∧
    (∀ t ∈ [cycle_trace, shared_cycle_fix_trace], ∀ b ∈ sharedIds t,
      (0 < countOn .free b t ↔ (0 : Int) ∈ refcounts b t) ∧
      ∀ c ∈ countsAtFree b t, c = some 0) := by
  decide

/-- C3: replaying `cycle.cpp`.  The trace allocates exactly the Shared blocks
`H1` and `H2`, has one `@sp_inc` and one `@sp_dec` on each, two `@push` and two
`@pop_stack` that leave the stack empty (popping `b` then `a`), and no `@free`
at all.  Both blocks end with reference count 1, each has exactly one `@leak`,
and both end in state `Leaked`. -/
theorem C3_cycle_both_blocks_leaked :
    sharedIds cycle_trace = ["H1", "H2"] ∧ rawIds cycle_trace = [] ∧
    (∀ b ∈ ["H1", "H2"],
      countOn .sp_inc b cycle_trace = 1 ∧ countOn .sp_dec b cycle_trace = 1 ∧
      refcounts b cycle_trace = [1, 2, 1] ∧ finalRefcount b cycle_trace = some 1 ∧
      countOn .free b cycle_trace = 0 ∧ countOn .leak b cycle_trace = 1 ∧
      finalState b cycle_trace = some .Leaked) ∧
    pushedNames cycle_trace = ["a", "b"] ∧
    countKind .pop_stack cycle_trace = 2 ∧
    replayStack cycle_trace [] [] = some ([], ["b", "a"]) ∧
    countKind .free cycle_trace = 0 ∧ countKind .leak cycle_trace = 2 := by
  decide

/-- C4: replaying `shared_cycle_fix.cpp`.  The trace allocates exactly the
Shared blocks `H1` and `H2`; `H1` receives no `@sp_inc` (the weak `prev`), `H2`
receives one.  The replayed counts run 1, 0 for `H1` and 1, 2, 1, 0 for `H2`,
so both end at exactly zero; each block has exactly one `@free`, placed where
its count is zero, both end in state `Freed`, and the trace has no `@leak`. -/
theorem C4_weak_fix_both_blocks_freed :
    sharedIds shared_cycle_fix_trace = ["H1", "H2"] ∧
    rawIds shared_cycle_fix_trace = [] ∧
    countOn .sp_inc "H1" shared_cycle_fix_trace = 0 ∧
    countOn .sp_inc "H2" shared_cycle_fix_trace = 1 ∧
    refcounts "H1" shared_cycle_fix_trace = [1, 0] ∧
    refcounts "H2" shared_cycle_fix_trace = [1, 2, 1, 0] ∧
    (∀ b ∈ ["H1", "H2"],
      finalRefcount b shared_cycle_fix_trace = some 0 ∧
      countOn .free b shared_cycle_fix_trace = 1 ∧
      countsAtFree b shared_cycle_fix_trace = [some 0] ∧
      finalState b shared_cycle_fix_trace = some .Freed) ∧
    countKind .leak shared_cycle_fix_trace = 0 := by
  decide

/-- C5: in `heap.cpp`, `stack_heap_stepper.cpp` and `smart_ptr.cpp` the Raw
blocks are `H1` and `H2`, the variable of the program's one `delete` statement
is bound to `H1`, and the terminal directives naming Raw blocks are, in trace
order, exactly `@free id=H1` followed by `@leak id=H2`: one `@free`, one
`@leak`, the `@free` on the deleted block and in front of the `@leak`. -/
theorem C5_one_free_then_one_leak :
    deletedThenLeaked heap_trace heap_deleted ∧
    deletedThenLeaked stack_heap_stepper_trace stack_heap_stepper_deleted ∧
    deletedThenLeaked smart_ptr_trace smart_ptr_deleted := by
  decide

/-- C7: every one of the six traces has a well-formed block lifecycle: the
allocated ids are `H1, H2, ...` in allocation order without repetition, every
`@bind_ptr`, `@sp_inc`, `@sp_dec`, `@free` and `@leak` names a block allocated
earlier in the trace, no block has more than one `@free` or both an `@free` and
an `@leak`, and no `@sp_inc`, `@sp_dec` or `@free` of a block follows its
`@free` or `@leak`. -/
theorem C7_lifecycle_well_formed :
    lifecycleWellFormed heap_trace ∧ lifecycleWellFormed recurse_trace ∧
    lifecycleWellFormed smart_ptr_trace ∧ lifecycleWellFormed stack_heap_stepper_trace ∧
    lifecycleWellFormed cycle_trace ∧ lifecycleWellFormed shared_cycle_fix_trace := by
  decide

/-- C8, evaluated on the code: `heap.cpp` has 3 `@push` and 4 `@pop_stack`, and
`shared_cycle_fix.cpp` has 2 `@push` and 3 `@pop_stack`; in both the last
`@pop_stack` meets an empty stack, so the whole trace holds more pops than
pushes.  `smart_ptr.cpp`, `cycle.cpp` and `stack_heap_stepper.cpp` keep the
stack discipline. -/
theorem C8_heap_pops_exceed_pushes :
    countKind .push heap_trace = 3 ∧ countKind .pop_stack heap_trace = 4 ∧
    replayStack heap_trace [] [] = none ∧ ¬ popsNeverExceedPushes heap_trace ∧
    countKind .push shared_cycle_fix_trace = 2 ∧
    countKind .pop_stack shared_cycle_fix_trace = 3 ∧
    replayStack shared_cycle_fix_trace [] [] = none ∧
    ¬ popsNeverExceedPushes shared_cycle_fix_trace ∧
    stackDiscipline smart_ptr_trace ∧ stackDiscipline cycle_trace ∧
    stackDiscipline stack_heap_stepper_trace := by
  decide

end Traces

/-! ## Theorems on `recurse` -/

theorem wrap32_of_isInt32 (x : Int) (h : isInt32 x) : wrap32 x = x := by
  unfold wrap32; unfold isInt32 at h; omega

theorem recurse_of_nonpos (M : Machine) (depth used : Nat) (n : Int)
    (hs : depth < M.stackFrames) (hh : used + 4100 ≤ M.heapBytes) (h : n ≤ 0) :
    recurse M depth used n = .ok ⟨0, 0, [.new n .a, .new n .b]⟩ := by
  rw [recurse]
  rw [if_neg (by omega), if_neg (by omega), if_neg (by omega), if_pos h]

theorem recurse_of_pos (M : Machine) (depth used : Nat) (n : Int)
    (hs : depth < M.stackFrames) (hh : used + 4100 ≤ M.heapBytes) (h : 0 < n) :
    recurse M depth used n =
      match recurse M (depth + 1) (used + 4000) (wrap32 (n - 1)) with
      | .error c => .error c
      | .ok r =>
        .ok ⟨wrap32 (r.value + 1), r.calls + 1,
          [.new n .a, .new n .b, .delete n .a] ++ r.ops⟩ := by
  rw [recurse]
  rw [if_neg (by omega), if_neg (by omega), if_neg (by omega), if_neg (by omega)]

theorem newBlocks_step (K : Int) (ops : List HeapOp) :
    newBlocks ([.new K .a, .new K .b, .delete K .a] ++ ops)
      = (K, .a) :: (K, .b) :: newBlocks ops := by
  simp [newBlocks]

theorem deletedBlocks_step (K : Int) (ops : List HeapOp) :
    deletedBlocks ([.new K .a, .new K .b, .delete K .a] ++ ops)
      = (K, .a) :: deletedBlocks ops := by
  simp [deletedBlocks]

theorem replayHeap_step (K : Int) (ops : List HeapOp) (live : List (Int × Var))
    (ha : (K, Var.a) ∉ live) (hb : (K, Var.b) ∉ live) :
    replayHeap ([.new K .a, .new K .b, .delete K .a] ++ ops) live
      = replayHeap ops (live ++ [(K, .b)]) := by
  have h1 : (K, Var.b) ∉ live ++ [(K, Var.a)] := by simp [hb]
  have h2 : (K, Var.a) ∈ (live ++ [(K, Var.a)]) ++ [(K, Var.b)] := by simp
  have h3 : ((live ++ [(K, Var.a)]) ++ [(K, Var.b)]).erase (K, Var.a)
      = live ++ [(K, Var.b)] := by
    rw [List.append_assoc, List.erase_append_right _ ha]
    simp
  simp only [List.cons_append, List.nil_append, replayHeap, if_neg ha, if_neg h1, if_pos h2, h3]
  rfl

theorem replayHeap_base (n : Int) (live : List (Int × Var))
    (hl : ∀ x ∈ live, n < x.1) :
    replayHeap [.new n .a, .new n .b] live = some (live ++ [(n, .a), (n, .b)]) := by
  have ha : (n, Var.a) ∉ live := fun h => by have := hl _ h; simp at this
  have hb : (n, Var.b) ∉ live ++ [(n, Var.a)] := by
    intro h
    rcases List.mem_append.mp h with h | h
    · have := hl _ h; simp at this
    · simp at h
  simp only [replayHeap, if_neg ha, if_neg hb, List.append_assoc, List.singleton_append]

theorem runShape_zero : runShape 0 ⟨0, 0, [.new 0 .a, .new 0 .b]⟩ := by
  refine ⟨rfl, rfl, by decide, by decide, by decide, by decide, by decide, by decide,
    by decide, ?_⟩
  intro live hl
  have := replayHeap_base 0 live (by simpa using hl)
  rw [this]
  rfl

theorem runShape_step (k : Nat) (r : Run) (hk : (k : Int) + 1 ≤ 2147483647)
    (h : runShape k r) :
    runShape (k + 1) ⟨wrap32 (r.value + 1), r.calls + 1,
      [.new ((k : Int) + 1) .a, .new ((k : Int) + 1) .b, .delete ((k : Int) + 1) .a]
        ++ r.ops⟩ := by
  obtain ⟨hv, hc, hn, hd, hle, hda, hnd, hchar, hlen, hrep⟩ := h
  have hD : ∀ x ∈ newBlocks r.ops,
      decide (x ∉ ((k : Int) + 1, Var.a) :: deletedBlocks r.ops)
        = decide (x ∉ deletedBlocks r.ops) := by
    intro x hx
    have h1 := hle x hx
    have h2 : x ≠ ((k : Int) + 1, Var.a) := by
      intro h; rw [h] at h1; simp at h1
    simp [h2]
  have hb : ((k : Int) + 1, Var.b) ∉ deletedBlocks r.ops := by
    intro h; have := (hda _ h).1; simp at this
  have ha : ((k : Int) + 1, Var.a) ∉ deletedBlocks r.ops := by
    intro h
    have := (hda _ h).2.2
    simp at this
  have hnever : neverDeleted ([.new ((k : Int) + 1) .a, .new ((k : Int) + 1) .b,
      .delete ((k : Int) + 1) .a] ++ r.ops)
      = ((k : Int) + 1, Var.b) :: neverDeleted r.ops := by
    simp only [neverDeleted, newBlocks_step, deletedBlocks_step]
    rw [List.filter_cons_of_neg (by simp), List.filter_cons_of_pos (by simpa using hb)]
    congr 1
    exact List.filter_congr hD
  unfold runShape
  simp only [hnever]
  push_cast
  refine ⟨?_, ?_, ?_, ?_, ?_, ?_, ?_, ?_, ?_, ?_⟩
  · simp only [hv]
    exact wrap32_of_isInt32 _ (by unfold isInt32; omega)
  · simp only [hc]
  · simp only [newBlocks_step, List.length_cons, hn]; omega
  · simp only [deletedBlocks_step, List.length_cons, hd]
  · simp only [newBlocks_step]
    intro x hx
    simp only [List.mem_cons] at hx
    rcases hx with h | h | h
    · rw [h]
    · rw [h]
    · have := hle x h; omega
  · simp only [deletedBlocks_step]
    intro x hx
    simp only [List.mem_cons] at hx
    rcases hx with h | h
    · rw [h]; exact ⟨rfl, by show (0 : Int) < k + 1; omega, le_refl _⟩
    · obtain ⟨h1, h2, h3⟩ := hda x h
      exact ⟨h1, h2, by omega⟩
  · simp only [deletedBlocks_step]
    exact List.nodup_cons.mpr ⟨ha, hnd⟩
  · rw [hchar]; simp only [newBlocks_step]
    rw [List.filter_cons_of_neg (by simp), List.filter_cons_of_pos (by simp)]
  · simp only [List.length_cons, hlen]
  · intro live hl
    have hla : ((k : Int) + 1, Var.a) ∉ live := fun h => by have := hl _ h; simp at this
    have hlb : ((k : Int) + 1, Var.b) ∉ live := fun h => by have := hl _ h; simp at this
    rw [replayHeap_step _ _ _ hla hlb, hrep]
    · simp
    · intro x hx
      rcases List.mem_append.mp hx with h | h
      · have := hl x h; omega
      · simp at h; rw [h]; simp

/-- With enough stack and heap, `recurse` on a non-negative argument returns a
run of the expected shape. -/
theorem recurse_nat (M : Machine) :
    ∀ (m depth used : Nat), (m : Int) ≤ 2147483647 →
      depth + m < M.stackFrames → used + 4000 * m + 4100 ≤ M.heapBytes →
      ∃ r, recurse M depth used m = .ok r ∧ runShape m r := by
  intro m
  induction m with
  | zero =>
    intro depth used _ hs hh
    refine ⟨_, ?_, runShape_zero⟩
    exact recurse_of_nonpos M depth used _ (by omega) (by omega) (le_refl _)
  | succ k ih =>
    intro depth used hm hs hh
    have hk : (k : Int) + 1 ≤ 2147483647 := by push_cast at hm; exact hm
    obtain ⟨r, hr, hshape⟩ := ih (depth + 1) (used + 4000) (by omega) (by omega) (by omega)
    have hw : wrap32 (((k + 1 : Nat) : Int) - 1) = (k : Int) := by
      push_cast
      rw [wrap32_of_isInt32 _ (by unfold isInt32; omega)]
      omega
    refine ⟨_, ?_, runShape_step k r hk hshape⟩
    rw [recurse_of_pos M depth used _ (by omega) (by omega) (by push_cast; omega), hw, hr]
    push_cast
    rfl

/-- When the stack has room for exactly `k` more invocations, the heap has
room for their blocks, and the argument is at least `k`, the call ends in
stack exhaustion. -/
theorem recurse_stack_exhausted (M : Machine) :
    ∀ (k depth used : Nat) (n : Int), isInt32 n → M.stackFrames = depth + k →
      (k : Int) ≤ n → used + 4000 * k + 4100 ≤ M.heapBytes →
      recurse M depth used n = .error .stackExhausted := by
  intro k
  induction k with
  | zero =>
    intro depth used n _ hs _ _
    rw [recurse, if_pos (by omega)]
  | succ j ih =>
    intro depth used n hn hs hk hh
    push_cast at hk
    have hw : wrap32 (n - 1) = n - 1 :=
      wrap32_of_isInt32 _ (by unfold isInt32 at hn ⊢; omega)
    rw [recurse_of_pos M depth used n (by omega) (by omega) (by omega), hw,
      ih (depth + 1) (used + 4000) (n - 1) (by unfold isInt32 at hn ⊢; omega) (by omega)
        (by omega) (by omega)]

/-- When the stack has room for at most `k` more invocations and the argument
is at least `k`, the call does not return, whatever the heap. -/
theorem recurse_crashes (M : Machine) :
    ∀ (k depth used : Nat) (n : Int), isInt32 n → M.stackFrames ≤ depth + k →
      (k : Int) ≤ n → ∃ c, recurse M depth used n = .error c := by
  intro k
  induction k with
  | zero =>
    intro depth used n _ hs _
    exact ⟨.stackExhausted, by rw [recurse, if_pos (by omega)]⟩
  | succ j ih =>
    intro depth used n hn hs hk
    push_cast at hk
    have hw : wrap32 (n - 1) = n - 1 :=
      wrap32_of_isInt32 _ (by unfold isInt32 at hn ⊢; omega)
    obtain ⟨c, hc⟩ := ih (depth + 1) (used + 4000) (n - 1)
      (by unfold isInt32 at hn ⊢; omega) (by omega) (by omega)
    rw [recurse]
    by_cases h1 : M.stackFrames ≤ depth
    · exact ⟨_, by rw [if_pos h1]⟩
    rw [if_neg h1]
    by_cases h2 : M.heapBytes < used + 100
    · exact ⟨_, by rw [if_pos h2]⟩
    rw [if_neg h2]
    by_cases h3 : M.heapBytes < used + 100 + 4000
    · exact ⟨_, by rw [if_pos h3]⟩
    rw [if_neg h3, if_neg (by omega), hw, hc]
    exact ⟨c, rfl⟩

/-- When the stack has room for `k + 1` more invocations, the argument is at
least `k`, and the heap lacks the bytes that `k + 1` invocations need, the call
ends in `std::bad_alloc`. -/
theorem recurse_bad_alloc (M : Machine) :
    ∀ (k depth used : Nat) (n : Int), isInt32 n → depth + k < M.stackFrames →
      (k : Int) ≤ n → M.heapBytes < used + 4000 * k + 4100 →
      recurse M depth used n = .error .badAlloc := by
  intro k
  induction k with
  | zero =>
    intro depth used n _ hs _ hh
    rw [recurse, if_neg (by omega)]
    by_cases h2 : M.heapBytes < used + 100
    · rw [if_pos h2]
    · rw [if_neg h2, if_pos (by omega)]
  | succ j ih =>
    intro depth used n hn hs hk hh
    push_cast at hk
    have hw : wrap32 (n - 1) = n - 1 :=
      wrap32_of_isInt32 _ (by unfold isInt32 at hn ⊢; omega)
    have hrec := ih (depth + 1) (used + 4000) (n - 1)
      (by unfold isInt32 at hn ⊢; omega) (by omega) (by omega) (by omega)
    rw [recurse, if_neg (by omega)]
    by_cases h2 : M.heapBytes < used + 100
    · rw [if_pos h2]
    rw [if_neg h2]
    by_cases h3 : M.heapBytes < used + 100 + 4000
    · rw [if_pos h3]
    rw [if_neg h3, if_neg (by omega), hw, hrec]

/-- C10 as stated fails: `recurse` has no depth guard and catches no
`std::bad_alloc`, so it does not return for every `int` n.  On a machine whose
call stack holds 131072 nested invocations (8 MiB of 64-byte frames) and whose
heap has 16 GiB, `recurse(150000)` ends in stack exhaustion; on a machine whose
stack holds `2^31` invocations and whose heap has 1 TiB, `recurse(2147483647)`
ends in `std::bad_alloc`; and on any machine, no call with an argument at least
as large as the number of invocations the stack holds returns. -/
theorem C10_recurse_exhausts_stack :
    isInt32 150000 ∧
    recurse ⟨131072, 17179869184⟩ 0 0 150000 = .error .stackExhausted ∧
    isInt32 2147483647 ∧
    recurse ⟨2147483648, 1099511627776⟩ 0 0 2147483647 = .error .badAlloc ∧
    (∀ (M : Machine) (n : Int), isInt32 n → (M.stackFrames : Int) ≤ n →
      ∃ c, recurse M 0 0 n = .error c) ∧
    ¬ (∀ (M : Machine) (n : Int), isInt32 n →
      ∃ r, recurse M 0 0 n = .ok r ∧ r.value = max n 0) := by
  have hint : isInt32 150000 := by unfold isInt32; omega
  have hmax : isInt32 2147483647 := by unfold isInt32; omega
  have hcrash : recurse ⟨131072, 17179869184⟩ 0 0 150000 = .error .stackExhausted :=
    recurse_stack_exhausted ⟨131072, 17179869184⟩ 131072 0 0 150000 hint
      (by simp) (by norm_num) (by norm_num)
  have halloc : recurse ⟨2147483648, 1099511627776⟩ 0 0 2147483647 = .error .badAlloc :=
    recurse_bad_alloc ⟨2147483648, 1099511627776⟩ 2147483647 0 0 2147483647 hmax
      (by norm_num) (by norm_num) (by norm_num)
  refine ⟨hint, hcrash, hmax, halloc, ?_, ?_⟩
  · intro M n hn hs
    exact recurse_crashes M M.stackFrames 0 0 n hn (by omega) hs
  · intro h
    obtain ⟨r, hr, _⟩ := h ⟨131072, 17179869184⟩ 150000 hint
    rw [hcrash] at hr
    cases hr

/-- C10 amended: for every `int` n, on a machine whose call stack holds more
than `max(n, 0)` nested invocations and whose heap has `4000 * max(n, 0) + 4100`
bytes, `recurse(n)` returns `max(n, 0)`: 0 without a recursive call when
`n <= 0`, and `n` after exactly `n` recursive calls when `n > 0`.  Every
invocation allocates two blocks (`2(n+1)` blocks for `n >= 0`); the deleted
blocks are pairwise distinct, each is the `a` of an invocation with a positive
argument, and there are `n` of them for `n >= 0`; the blocks never deleted are
exactly every `b` and the `a` of the invocation whose argument is not positive,
`n + 2` blocks for `n >= 0`.  Replayed in execution order from an empty heap,
every `new[]` makes a fresh block, every `delete[]` releases a block that is
live at that moment, and the blocks left live are the never-deleted ones. -/
theorem C10_recurse_result_and_blocks (M : Machine) (n : Int) (hn : isInt32 n)
    (hs : n.toNat < M.stackFrames) (hh : 4000 * n.toNat + 4100 ≤ M.heapBytes) :
    ∃ r, recurse M 0 0 n = .ok r ∧
      r.value = max n 0 ∧
      (n ≤ 0 → r.value = 0 ∧ r.calls = 0) ∧
      (0 < n → r.value = n ∧ r.calls = n.toNat) ∧
      (newBlocks r.ops).length = 2 * (r.calls + 1) ∧
      (0 ≤ n → (newBlocks r.ops).length = 2 * (n.toNat + 1)) ∧
      (∀ x ∈ deletedBlocks r.ops, x.2 = .a ∧ 0 < x.1) ∧
      (deletedBlocks r.ops).Nodup ∧
      (deletedBlocks r.ops).length = n.toNat ∧
      neverDeleted r.ops
        = (newBlocks r.ops).filter (fun x => decide (x.2 = .b ∨ x.1 ≤ 0)) ∧
      (0 ≤ n → (neverDeleted r.ops).length = n.toNat + 2) ∧
      replayHeap r.ops [] = some (neverDeleted r.ops) := by
  rcases lt_or_le n 0 with hneg | hpos
  · have ht : n.toNat = 0 := by omega
    have hr := recurse_of_nonpos M 0 0 n (by omega) (by omega) (le_of_lt hneg)
    refine ⟨_, hr, ?_⟩
    rw [ht]
    refine ⟨?_, ?_, ?_, ?_, ?_, ?_, ?_, ?_, ?_, ?_, ?_⟩
    · exact (max_eq_right (le_of_lt hneg)).symm
    · intro _; exact ⟨rfl, rfl⟩
    · intro h; omega
    · simp [newBlocks]
    · intro h; omega
    · simp [deletedBlocks]
    · simp [deletedBlocks]
    · simp [deletedBlocks]
    · simp [neverDeleted, newBlocks, deletedBlocks, le_of_lt hneg]
    · intro h; omega
    · rw [replayHeap_base n [] (by simp)]
      simp [neverDeleted, newBlocks, deletedBlocks]
  · obtain ⟨m, rfl⟩ := Int.eq_ofNat_of_zero_le hpos
    have hm : (m : Int) ≤ 2147483647 := hn.2
    have ht : (m : Int).toNat = m := Int.toNat_natCast m
    rw [ht] at hs hh
    obtain ⟨r, hr, hv, hc, hnew, hd, _, hda, hnd, hchar, hlen, hrep⟩ :=
      recurse_nat M m 0 0 hm (by omega) (by omega)
    refine ⟨r, hr, ?_⟩
    rw [ht]
    refine ⟨?_, ?_, ?_, ?_, ?_, ?_, hnd, hd, hchar, fun _ => hlen, ?_⟩
    · rw [hv]; exact (max_eq_left hpos).symm
    · intro h
      have h0 : m = 0 := by omega
      subst h0
      exact ⟨by simpa using hv, hc⟩
    · intro _; exact ⟨hv, hc⟩
    · rw [hnew, hc]
    · intro _; exact hnew
    · intro x hx; exact ⟨(hda x hx).1, (hda x hx).2.1⟩
    · have := hrep [] (by simp)
      simpa using this

/-- Witness of C10 (amended) at `n = 2` on a machine with exactly the three
stack frames and the 12100 heap bytes the call needs. -/
theorem C10_recurse_result_and_blocks_witness :
    isInt32 2 ∧ (2 : Int).toNat < (Machine.mk 3 12100).stackFrames ∧
    4000 * (2 : Int).toNat + 4100 ≤ (Machine.mk 3 12100).heapBytes ∧
    ∃ r, recurse ⟨3, 12100⟩ 0 0 2 = .ok r ∧
      r.value = max 2 0 ∧
      ((2 : Int) ≤ 0 → r.value = 0 ∧ r.calls = 0) ∧
      ((0 : Int) < 2 → r.value = 2 ∧ r.calls = (2 : Int).toNat) ∧
      (newBlocks r.ops).length = 2 * (r.calls + 1) ∧
      ((0 : Int) ≤ 2 → (newBlocks r.ops).length = 2 * ((2 : Int).toNat + 1)) ∧
      (∀ x ∈ deletedBlocks r.ops, x.2 = .a ∧ 0 < x.1) ∧
      (deletedBlocks r.ops).Nodup ∧
      (deletedBlocks r.ops).length = (2 : Int).toNat ∧
      neverDeleted r.ops
        = (newBlocks r.ops).filter (fun x => decide (x.2 = .b ∨ x.1 ≤ 0)) ∧
      ((0 : Int) ≤ 2 → (neverDeleted r.ops).length = (2 : Int).toNat + 2) ∧
      replayHeap r.ops [] = some (neverDeleted r.ops) :=
  ⟨by unfold isInt32; decide, by decide, by decide,
    C10_recurse_result_and_blocks ⟨3, 12100⟩ 2 (by unfold isInt32; decide)
      (by decide) (by decide)⟩

/-! ## Theorems on the generator -/

/-- The frame suspended at the `co_yield` of iteration `k`. -/
theorem resume_at_yield (n : Int) (hn : n ≤ 2147483647) (k : Nat) (hk : (k : Int) < n)
    (v : Option Int) :
    Coro.resume ⟨n, k, .atYield, v⟩ =
      some (if ((k : Int) + 1) < n
        then ⟨n, (k : Int) + 1, .atYield, some (wrap32 (((k : Int) + 1) * ((k : Int) + 1)))⟩
        else ⟨n, (k : Int) + 1, .finished, v⟩) := by
  have hw : wrap32 ((k : Int) + 1) = (k : Int) + 1 :=
    wrap32_of_isInt32 _ (by unfold isInt32; omega)
  simp only [Coro.resume, Coro.enterLoop, hw]

theorem consumeFrom_at_yield (n : Int) (hn : n ≤ 2147483647) :
    ∀ (fuel k : Nat), (k : Int) < n → n.toNat - k < fuel →
      consumeFrom fuel ⟨some ⟨n, k, .atYield, some (wrap32 ((k : Int) * (k : Int)))⟩, false⟩
        = some ((List.range' k (n.toNat - k)).map
            (fun (i : Nat) => (⟨wrap32 ((i : Int) * (i : Int)), false⟩ : Seen))) := by
  intro fuel
  induction fuel with
  | zero => intro k _ h; omega
  | succ f ih =>
    intro k hk hf
    have hres := resume_at_yield n hn k hk (some (wrap32 ((k : Int) * (k : Int))))
    by_cases hlast : ((k : Int) + 1) < n
    · have hlen : n.toNat - k = (n.toNat - (k + 1)) + 1 := by omega
      have hrec := ih (k + 1) (by push_cast; exact hlast) (by omega)
      rw [if_pos hlast] at hres
      push_cast at hrec
      simp only [consumeFrom, Generator.iterator.atEnd, Generator.iterator.deref,
        Generator.iterator.next, hres, Option.map_some', Coro.done]
      simp [hrec, hlen, List.range'_succ]
    · have hlen : n.toNat - k = 1 := by omega
      rw [if_neg hlast] at hres
      obtain ⟨g, rfl⟩ : ∃ g, f = g + 1 := ⟨f - 1, by omega⟩
      simp only [consumeFrom, Generator.iterator.atEnd, Generator.iterator.deref,
        Generator.iterator.next, hres, Option.map_some', Coro.done]
      simp [hlen]

/-- What the consumer sees for any `n` that `++i` cannot overflow on. -/
theorem consume_eq (n : Int) (hn : n ≤ 2147483647) (fuel : Nat) (hf : n.toNat < fuel) :
    consume fuel n = some ((List.range n.toNat).map
      (fun (i : Nat) => (⟨wrap32 ((i : Int) * (i : Int)), false⟩ : Seen))) := by
  unfold consume Generator.begin produce_values
  by_cases h0 : 0 < n
  · have := consumeFrom_at_yield n hn fuel 0 (by simpa using h0) (by simpa using hf)
    simp only [Coro.resume, Coro.enterLoop, if_pos h0, Option.map_some', Option.some_bind,
      Coro.done]
    simp only [Nat.cast_zero, Nat.sub_zero, mul_zero] at this
    simp [this, List.range_eq_range']
  · have ht : n.toNat = 0 := by omega
    obtain ⟨g, rfl⟩ : ∃ g, fuel = g + 1 := ⟨fuel - 1, by omega⟩
    simp [Coro.resume, Coro.enterLoop, h0, Coro.done, consumeFrom,
      Generator.iterator.atEnd, ht]

theorem resumeTimes_at_yield (n : Int) (hn : n ≤ 2147483647) :
    ∀ k : Nat, (k : Int) < n →
      resumeTimes (k + 1) (produce_values n)
        = some ⟨n, k, .atYield, some (wrap32 ((k : Int) * (k : Int)))⟩ := by
  intro k
  induction k with
  | zero =>
    intro h0
    have h0' : (0 : Int) < n := by simpa using h0
    simp [resumeTimes, produce_values, Coro.resume, Coro.enterLoop, h0']
  | succ j ih =>
    intro hj
    have hj' : (j : Int) + 1 < n := by push_cast at hj; exact hj
    have hprev := ih (by omega)
    have hres := resume_at_yield n hn j (by omega) (some (wrap32 ((j : Int) * (j : Int))))
    rw [if_pos hj'] at hres
    rw [resumeTimes, hprev, Option.some_bind, hres]
    push_cast
    rfl

theorem resumeTimes_completes (n : Int) (hn : n ≤ 2147483647) :
    ∃ c, resumeTimes (n.toNat + 1) (produce_values n) = some c ∧ c.done = true := by
  by_cases h0 : 0 < n
  · obtain ⟨m, hm⟩ : ∃ m : Nat, n.toNat = m + 1 := ⟨n.toNat - 1, by omega⟩
    have hlt : (m : Int) < n := by omega
    have hprev := resumeTimes_at_yield n hn m hlt
    have hres := resume_at_yield n hn m hlt (some (wrap32 ((m : Int) * (m : Int))))
    rw [if_neg (by omega)] at hres
    refine ⟨⟨n, (m : Int) + 1, .finished, some (wrap32 ((m : Int) * (m : Int)))⟩, ?_, rfl⟩
    rw [hm, resumeTimes, hprev, Option.some_bind, hres]
  · have ht : n.toNat = 0 := by omega
    refine ⟨⟨n, 0, .finished, none⟩, ?_, rfl⟩
    simp [ht, resumeTimes, produce_values, Coro.resume, Coro.enterLoop, h0]

theorem wrap32_square_small (i : Nat) (hi : i ≤ 46340) :
    wrap32 ((i : Int) * (i : Int)) = (i : Int) * (i : Int) := by
  apply wrap32_of_isInt32
  have h0 : (0 : Int) ≤ (i : Int) := Int.ofNat_nonneg i
  have h1 : (i : Int) ≤ 46340 := by exact_mod_cast hi
  have h2 : (i : Int) * (i : Int) ≤ 46340 * 46340 := mul_le_mul h1 h1 h0 (by norm_num)
  have h3 : (0 : Int) ≤ (i : Int) * (i : Int) := mul_nonneg h0 h0
  unfold isInt32
  constructor <;> linarith

/-- C9 as stated fails for large `n`: with `n = 46342` the loop ends after
46342 values, but the value seen at position 46341 is the wrapped product
`-2147479015`, not `46341 * 46341 = 2147488281`, so the values seen are not the
squares. -/
theorem C9_square_overflows_at_46342 :
    ∃ vs, consume 46343 46342 = some vs ∧ vs.length = 46342 ∧
      vs[46341]? = some ⟨-2147479015, false⟩ ∧
      (squares 46342)[46341]? = some 2147488281 ∧
      vs.map Seen.value ≠ squares 46342 := by
  have hc := consume_eq 46342 (by norm_num) 46343 (by simp)
  have ht : (46342 : Int).toNat = 46342 := rfl
  rw [ht] at hc
  have hw : wrap32 (46341 * 46341) = -2147479015 := by unfold wrap32; norm_num
  have h1 : ((List.range 46342).map
      (fun (i : Nat) => (⟨wrap32 ((i : Int) * (i : Int)), false⟩ : Seen)))[46341]?
        = some ⟨-2147479015, false⟩ := by
    rw [List.getElem?_map, List.getElem?_range (by norm_num)]
    simp only [Option.map_some', Nat.cast_ofNat, hw]
  have h2 : (squares 46342)[46341]? = some 2147488281 := by
    unfold squares
    rw [List.getElem?_map, List.getElem?_range (by norm_num)]
    simp only [Option.map_some', Nat.cast_ofNat]
    norm_num
  refine ⟨_, hc, by simp, h1, h2, fun heq => ?_⟩
  have h3 := congrArg (fun l => l[46341]?) heq
  simp only [List.getElem?_map, h1, h2, Option.map_some'] at h3
  exact absurd h3 (by decide)

/-- C9 amended: for every `n <= 46341`, so that each `i * i` with `i < n` fits
in an `int`.  The range-for loop, given more than `n` loop tests, ends and sees
exactly the squares `0, 1, ..., (n-1)^2` in that order (`n` values, none when
`n <= 0`), none of them read after the coroutine completed; the `(k+1)`-th
`resume()` stops at the `co_yield` of `i = k` with value `k * k` for `k < n`,
and the `(n+1)`-th (the first when `n <= 0`) completes the coroutine.  For
`n = 5` the values are 0, 1, 4, 9, 16. -/
theorem C9_generator_yields_squares (n : Int) (hn : n ≤ 46341) :
    (∀ fuel, n.toNat < fuel →
      consume fuel n = some ((squares n.toNat).map (fun v => (⟨v, false⟩ : Seen)))) ∧
    (squares n.toNat).length = n.toNat ∧
    (∀ k : Nat, (k : Int) < n →
      resumeTimes (k + 1) (produce_values n)
        = some ⟨n, k, .atYield, some ((k : Int) * (k : Int))⟩) ∧
    (∃ c, resumeTimes (n.toNat + 1) (produce_values n) = some c ∧ c.done = true) ∧
    (consume 6 5).map (List.map Seen.value) = some [0, 1, 4, 9, 16] := by
  have hmax : n ≤ 2147483647 := by omega
  refine ⟨?_, by simp [squares], ?_, resumeTimes_completes n hmax, by decide⟩
  · intro fuel hf
    rw [consume_eq n hmax fuel hf, squares, List.map_map]
    refine congrArg some ?_
    apply List.map_congr_left
    intro i hi
    have hi' : i < n.toNat := List.mem_range.mp hi
    simp only [Function.comp_apply]
    rw [wrap32_square_small i (by omega)]
  · intro k hk
    rw [resumeTimes_at_yield n hmax k hk, wrap32_square_small k (by omega)]

/-- Witness of C9 (amended) at `n = 5`. -/
theorem C9_generator_yields_squares_witness :
    (5 : Int) ≤ 46341 ∧
    ((∀ fuel, (5 : Int).toNat < fuel →
      consume fuel 5 = some ((squares (5 : Int).toNat).map (fun v => (⟨v, false⟩ : Seen)))) ∧
    (squares (5 : Int).toNat).length = (5 : Int).toNat ∧
    (∀ k : Nat, (k : Int) < 5 →
      resumeTimes (k + 1) (produce_values 5)
        = some ⟨5, k, .atYield, some ((k : Int) * (k : Int))⟩) ∧
    (∃ c, resumeTimes ((5 : Int).toNat + 1) (produce_values 5) = some c ∧ c.done = true) ∧
    (consume 6 5).map (List.map Seen.value) = some [0, 1, 4, 9, 16]) :=
  ⟨by norm_num, C9_generator_yields_squares 5 (by norm_num)⟩

end ICME
